import Mathlib

/-! Verification development for the client-side Conjure core of gotapdance
(src/tapdance/conjure.go).  Go byte slices are modelled as lists of natural
numbers kept below 256 by the producing operations; Go strings become Lean
strings, converted to bytes where the code hashes them. -/

set_option maxRecDepth 8000

namespace Conjure

/-- Bytes of an ASCII Go string: each character becomes its code point, which
for the ASCII literals of conjure.go is exactly its UTF-8 byte. -/
def strBytes (s : String) : List Nat := s.data.map Char.toNat

/-- Semantics of Go math/big Int.SetBytes: interpret a byte slice as a
big-endian unsigned integer. -/
def beNat (bs : List Nat) : Nat := bs.foldl (fun acc b => acc * 256 + b) 0

/-! SHA-256, translated from FIPS 180-4 as implemented by Go crypto/sha256,
which conjure.go uses through crypto/hmac and crypto/sha256.  Words are
naturals reduced mod 2^32. -/

/-- Reduce to a 32-bit word. -/
def w32 (n : Nat) : Nat := n % 4294967296

/-- Right rotation of a 32-bit word by k positions. -/
def rotr32 (k x : Nat) : Nat := w32 ((x >>> k) ||| (x <<< (32 - k)))

/-- SHA-256 big sigma 0. -/
def bigSigma0 (x : Nat) : Nat := rotr32 2 x ^^^ rotr32 13 x ^^^ rotr32 22 x

/-- SHA-256 big sigma 1. -/
def bigSigma1 (x : Nat) : Nat := rotr32 6 x ^^^ rotr32 11 x ^^^ rotr32 25 x

/-- SHA-256 small sigma 0. -/
def smallSigma0 (x : Nat) : Nat := rotr32 7 x ^^^ rotr32 18 x ^^^ (x >>> 3)

/-- SHA-256 small sigma 1. -/
def smallSigma1 (x : Nat) : Nat := rotr32 17 x ^^^ rotr32 19 x ^^^ (x >>> 10)

/-- SHA-256 choice function; complement taken inside 32 bits. -/
def chFn (x y z : Nat) : Nat := (x &&& y) ^^^ ((x ^^^ 4294967295) &&& z)

/-- SHA-256 majority function. -/
def majFn (x y z : Nat) : Nat := (x &&& y) ^^^ (x &&& z) ^^^ (y &&& z)

/-- SHA-256 round constants (decimal rendering of the FIPS 180-4 table). -/
def sha256K : List Nat :=
  [1116352408, 1899447441, 3049323471, 3921009573, 961987163,
   1508970993, 2453635748, 2870763221, 3624381080, 310598401,
   607225278, 1426881987, 1925078388, 2162078206, 2614888103,
   3248222580, 3835390401, 4022224774, 264347078, 604807628,
   770255983, 1249150122, 1555081692, 1996064986, 2554220882,
   2821834349, 2952996808, 3210313671, 3336571891, 3584528711,
   113926993, 338241895, 666307205, 773529912, 1294757372,
   1396182291, 1695183700, 1986661051, 2177026350, 2456956037,
   2730485921, 2820302411, 3259730800, 3345764771, 3516065817,
   3600352804, 4094571909, 275423344, 430227734, 506948616,
   659060556, 883997877, 958139571, 1322822218, 1537002063,
   1747873779, 1955562222, 2024104815, 2227730452, 2361852424,
   2428436474, 2756734187, 3204031479, 3329325298]

/-- Working state of the SHA-256 compression function: eight 32-bit words. -/
structure Hash8 where
  h0 : Nat
  h1 : Nat
  h2 : Nat
  h3 : Nat
  h4 : Nat
  h5 : Nat
  h6 : Nat
  h7 : Nat
deriving DecidableEq

/-- SHA-256 initial hash value (decimal rendering). -/
def sha256InitHash : Hash8 :=
  ⟨1779033703, 3144134277, 1013904242, 2773480762,
   1359893119, 2600822924, 528734635, 1541459225⟩

/-- Big-endian bytes of a 32-bit word. -/
def wordBytes (w : Nat) : List Nat :=
  [(w >>> 24) &&& 255, (w >>> 16) &&& 255, (w >>> 8) &&& 255, w &&& 255]

/-- Final digest bytes of a SHA-256 state. -/
def digestBytes (s : Hash8) : List Nat :=
  wordBytes s.h0 ++ wordBytes s.h1 ++ wordBytes s.h2 ++ wordBytes s.h3 ++
  wordBytes s.h4 ++ wordBytes s.h5 ++ wordBytes s.h6 ++ wordBytes s.h7

/-- Group a 64-byte block into 16 big-endian 32-bit words. -/
def bytesToWords : List Nat → List Nat
  | b0 :: b1 :: b2 :: b3 :: rest =>
    (b0 * 16777216 + b1 * 65536 + b2 * 256 + b3) :: bytesToWords rest
  | _ => []

/-- Extend the 16 message words to 64 by the SHA-256 message schedule;
the first argument is the number of words still to append (48). -/
def extendW : Nat → List Nat → List Nat
  | 0, w => w
  | n + 1, w =>
    let len := w.length
    extendW n (w ++ [w32 (smallSigma1 (w.getD (len - 2) 0) + w.getD (len - 7) 0 +
      smallSigma0 (w.getD (len - 15) 0) + w.getD (len - 16) 0)])

/-- One SHA-256 round on the working variables, fed one (constant, word) pair. -/
def roundStep (st : Hash8) (kw : Nat × Nat) : Hash8 :=
  let t1 := w32 (st.h7 + bigSigma1 st.h4 + chFn st.h4 st.h5 st.h6 + kw.1 + kw.2)
  let t2 := w32 (bigSigma0 st.h0 + majFn st.h0 st.h1 st.h2)
  ⟨w32 (t1 + t2), st.h0, st.h1, st.h2, w32 (st.h3 + t1), st.h4, st.h5, st.h6⟩

/-- SHA-256 compression of one 64-byte block into the running hash. -/
def compressBlock (st : Hash8) (block : List Nat) : Hash8 :=
  let ws := extendW 48 (bytesToWords block)
  let r := (sha256K.zip ws).foldl roundStep st
  ⟨w32 (st.h0 + r.h0), w32 (st.h1 + r.h1), w32 (st.h2 + r.h2), w32 (st.h3 + r.h3),
   w32 (st.h4 + r.h4), w32 (st.h5 + r.h5), w32 (st.h6 + r.h6), w32 (st.h7 + r.h7)⟩

/-- Big-endian bytes of a 64-bit length field. -/
def be64 (n : Nat) : List Nat :=
  [(n >>> 56) &&& 255, (n >>> 48) &&& 255, (n >>> 40) &&& 255, (n >>> 32) &&& 255,
   (n >>> 24) &&& 255, (n >>> 16) &&& 255, (n >>> 8) &&& 255, n &&& 255]

/-- SHA-256 padding: a 0x80 byte, zeros, then the bit length, to a multiple
of 64 bytes. -/
def sha256Pad (msg : List Nat) : List Nat :=
  msg ++ 128 :: List.replicate ((119 - msg.length % 64) % 64) 0 ++ be64 (8 * msg.length)

/-- Split a padded message into 64-byte blocks; the first argument is fuel,
instantiated with the list length. -/
def chunks64 : Nat → List Nat → List (List Nat)
  | 0, _ => []
  | _, [] => []
  | fuel + 1, l => l.take 64 :: chunks64 fuel (l.drop 64)

/-- SHA-256 of a byte sequence. -/
def sha256 (msg : List Nat) : List Nat :=
  digestBytes ((chunks64 (sha256Pad msg).length (sha256Pad msg)).foldl compressBlock sha256InitHash)

/-- HMAC-SHA256 as implemented by Go crypto/hmac: keys longer than the
64-byte block are hashed, then padded with zeros; inner pad 0x36, outer 0x5c. -/
def hmacSha256 (key msg : List Nat) : List Nat :=
  sha256 (((if 64 < key.length then sha256 key else key) ++
      List.replicate (64 - (if 64 < key.length then sha256 key else key).length) 0).map
        (fun b => b ^^^ 92) ++
    sha256 ((((if 64 < key.length then sha256 key else key) ++
      List.replicate (64 - (if 64 < key.length then sha256 key else key).length) 0).map
        (fun b => b ^^^ 54)) ++ msg))

/-- conjureHMAC from conjure.go: HMAC-SHA256 of the context string under the
given key. -/
def conjureHMAC (key : List Nat) (str : String) : List Nat := hmacSha256 key (strBytes str)

/-! Data model of conjure.go. -/

/-- Transport constant MinTransport (iota value 0). -/
def MinTransport : Nat := 0

/-- Transport constant NullTransport (iota value 1). -/
def NullTransport : Nat := 1

/-- Transport constant Obfs4Transport (iota value 2). -/
def Obfs4Transport : Nat := 2

/-- IP-family constant v4 (iota value 0). -/
def famV4 : Nat := 0

/-- IP-family constant v6 (iota value 1). -/
def famV6 : Nat := 1

/-- IP-family constant both (iota value 2). -/
def famBoth : Nat := 2

/-- The decoy record consumed from the asset layer (pb.TLSDecoySpec); only the
fields conjure.go reads are modelled. -/
structure TLSDecoySpec where
  hostname : String
  ipAddrStr : String
deriving DecidableEq

/-- Asset snapshot fields consumed by SelectDecoys and generateVSP.  Modelled
from the spec: the asset layer (Assets()) is an external collaborator, not
under src/; the spec lists its accessors get_v4_decoys, get_v6_decoys,
get_all_decoys and get_generation. -/
structure AssetState where
  v4Decoys : List TLSDecoySpec
  v6Decoys : List TLSDecoySpec
  allDecoys : List TLSDecoySpec
  generation : Nat
deriving DecidableEq

/-- sharedKeys from conjure.go.  All fields are byte slices; SharedSecret nil
versus empty is indistinguishable to every reader in src (hex encoding of a
nil slice is empty, covered by the short-secret branch of IDString), so byte
slices are modelled as plain lists. -/
structure SharedKeysGo where
  SharedSecret : List Nat
  Representative : List Nat
  FspKey : List Nat
  FspIv : List Nat
  VspKey : List Nat
  VspIv : List Nat
  NewMasterSecret : List Nat
  ConjureSeed : List Nat
deriving DecidableEq

/-- V6 support record of a session (the checked timestamp carries real time
and is read only by the dead useV4/useV6 branches; it is not modelled).  The
Go field named include is renamed v6Include (include is a Lean keyword). -/
structure V6State where
  support : Bool
  v6Include : Nat
deriving DecidableEq

/-- ConjureSession from conjure.go.  Keys is a pointer and may be nil.  The
stats record (timing, mutated under a mutex) and the RegDecoys field that
register overwrites before use are not modelled; no claim reads them. -/
structure ConjureSessionGo where
  Keys : Option SharedKeysGo
  Width : Nat
  V6Support : V6State
  UseProxyHeader : Bool
  SessionID : Nat
  Phantom : Option (List Nat)
  Transport : Nat
  CovertAddress : String
deriving DecidableEq

/-- ConjureReg from conjure.go.  The keys pointer is modelled as always
present: the only constructor in src (ConjureSession.register) sets it to the
session's non-nil keys, and every method dereferences it unconditionally.
The stats record and mutex are not modelled. -/
structure ConjureRegGo where
  seed : List Nat
  sessionIDStr : String
  phantom : Option (List Nat)
  useProxyHeader : Bool
  covertAddress : String
  phantomSNI : String
  v6Support : Bool
  transport : Nat
  keys : SharedKeysGo
deriving DecidableEq

/-! IDString. -/

/-- Lowercase hex digits used by Go encoding/hex. -/
def hexDigits : String := "0123456789abcdef"

/-- One hex digit; the mod 16 is a no-op for nibbles of genuine bytes. -/
def hexDigit (n : Nat) : Char := hexDigits.data.getD (n % 16) '0'

/-- Go hex.Encode of a byte slice, lowercase, two digits per byte. -/
def hexEncode (bs : List Nat) : String :=
  String.mk (bs.foldr (fun b acc => hexDigit (b >>> 4) :: hexDigit (b % 16) :: acc) [])

/-- Literal pieces of the IDString format strings. -/
def idOpen : String := "["

/-- Separator of the IDString format. -/
def idSep : String := "-"

/-- Closing bracket of the IDString format. -/
def idClose : String := "]"

/-- Zero-keys placeholder of IDString. -/
def idZeroSecret : String := "-000000]"

/-- ConjureSession.IDString from conjure.go: the decimal session id and the
first six hex characters of the shared secret, or a 000000 placeholder when
the keys pointer or the secret is nil, or the hex encoding is shorter than
six characters. -/
def idString (s : ConjureSessionGo) : String :=
  match s.Keys with
  | none => idOpen ++ Nat.repr s.SessionID ++ idZeroSecret
  | some k =>
    let secret := hexEncode k.SharedSecret
    if secret.length < 6 then idOpen ++ Nat.repr s.SessionID ++ idZeroSecret
    else idOpen ++ Nat.repr s.SessionID ++ idSep ++ secret.take 6 ++ idClose

/-! SelectDecoys. -/

/-- Context string of the decoy-selection HMAC. -/
def registrationDecoyContext : String := "registrationdecoy"

/-- Index drawn for the i-th decoy: conjure.go sets hmacInt from the first 8
hmac bytes, immediately overwrites it with SetBytes over the full 32-byte
hmac (so the dead first SetBytes has no effect), takes Abs (a no-op on the
non-negative SetBytes result) and reduces it mod the pool size. -/
def decoyIdx (sharedSecret : List Nat) (i : Nat) (numDecoys : Nat) : Nat :=
  beNat (conjureHMAC sharedSecret (registrationDecoyContext ++ Nat.repr i)) % numDecoys

/-- The selection loop of SelectDecoys over the list of indices i to draw.
A pool of size zero makes the Go code call big.Int.Mod with modulus zero,
a division-by-zero run-time panic, modelled as none. -/
def selectLoop (sharedSecret : List Nat) (pool : List TLSDecoySpec) : List Nat → Option (List TLSDecoySpec)
  | [] => some []
  | i :: rest =>
    if h : 0 < pool.length then
      match selectLoop sharedSecret pool rest with
      | none => none
      | some ds => some (pool.get ⟨decoyIdx sharedSecret i pool.length, Nat.mod_lt _ h⟩ :: ds)
    else none

/-- SelectDecoys restricted to an already-chosen pool: draw width decoys with
independent HMAC draws (duplicates permitted). -/
def selectDecoysFrom (sharedSecret : List Nat) (pool : List TLSDecoySpec) (width : Nat) :
    Option (List TLSDecoySpec) :=
  selectLoop sharedSecret pool (List.range width)

/-- The pool switch at the top of SelectDecoys: v6, v4, both, and a default
arm both falling to the full list. -/
def decoyPoolFor (version : Nat) (assets : AssetState) : List TLSDecoySpec :=
  match version with
  | 1 => assets.v6Decoys
  | 0 => assets.v4Decoys
  | 2 => assets.allDecoys
  | _ => assets.allDecoys

/-- SelectDecoys from conjure.go. -/
def selectDecoys (sharedSecret : List Nat) (version : Nat) (width : Nat) (assets : AssetState) :
    Option (List TLSDecoySpec) :=
  selectDecoysFrom sharedSecret (decoyPoolFor version assets) width

/-! ConjureSession.register. -/

/-- One result posted to the dialErrors channel by a registration goroutine:
a nil error, a RegError with code Unreachable, or any other error. -/
inductive DialRes where
  | success
  | unreachable
  | failure
deriving DecidableEq

/-- Outcome of register, together with the error codes it can surface. -/
inductive RegOutcome where
  | phantomFailed
  | errUnreachable
  | ok (reg : ConjureRegGo)
deriving DecidableEq

/-- The drain loop of register over the arrival-ordered channel results;
returns the final unreachableCount and the number of results consumed.  The
Go loop increments the tally on an Unreachable RegError and keeps draining
while the tally is below width, and breaks on any other result (success or
other error). -/
def drainDialErrors (width : Nat) : List DialRes → Nat → Nat × Nat
  | [], cnt => (cnt, 0)
  | r :: rest, cnt =>
    if r = DialRes.unreachable then
      if cnt + 1 < width then
        let p := drainDialErrors width rest (cnt + 1)
        (p.1, p.2 + 1)
      else (cnt + 1, 1)
    else (cnt, 1)

/-- ConjureSession.register from conjure.go.  Inputs not under src are passed
as parameters: the asset snapshot, the SelectPhantom result (newDDIpSelector
is not under src; register only propagates the selected IP or fails), and the
arrival-ordered channel results of the width registration goroutines.  The
outer Option is a Go panic: a nil Keys pointer dereference, or the zero-
modulus Mod panic inside SelectDecoys.  The Nat paired with the outcome is
instrumentation: how many channel results the drain loop consumed before
returning. -/
def register (s : ConjureSessionGo) (assets : AssetState) (phantomSel : Option (List Nat))
    (results : List DialRes) : Option (RegOutcome × Nat) :=
  match s.Keys with
  | none => none
  | some keys =>
    match selectDecoys keys.SharedSecret s.V6Support.v6Include s.Width assets with
    | none => none
    | some regDecoys =>
      match phantomSel with
      | none => some (RegOutcome.phantomFailed, 0)
      | some phantom =>
        let reg : ConjureRegGo :=
          { seed := []
            sessionIDStr := idString s
            phantom := some phantom
            useProxyHeader := false
            covertAddress := s.CovertAddress
            phantomSNI := ""
            v6Support := s.V6Support.support
            transport := 0
            keys := keys }
        let width := regDecoys.length
        let drained := drainDialErrors width results 0
        if drained.1 = width then some (RegOutcome.errUnreachable, drained.2)
        else some (RegOutcome.ok reg, drained.2)

/-! ConjureReg.Connect. -/

/-- The Min transport context string; the typo is part of the wire protocol. -/
def minTransportContext : String := "MinTrasportHMACString"

/-- Error returned by ConjureReg.Connect. -/
inductive ConnectErr where
  | dialFailed
  | notImplemented
deriving DecidableEq

/-- ConjureReg.Connect from conjure.go, after the deadline bookkeeping (real
time, unobservable here).  The phantom TCP dial is an external event passed
as a parameter: some conn models a successful DialContext, none a dial error.
Returns the payloads written to the phantom connection in order, then the
(net.Conn, error) pair the function returns.  The switch has arms for
MinTransport and Obfs4Transport only; every other value, including
NullTransport, falls to the default arm, which writes the Min tag.  On every
non-Obfs4 path the function ends with a literal return nil, nil. -/
def connectReg (reg : ConjureRegGo) (dialOutcome : Option Nat) :
    List (List Nat) × Option Nat × Option ConnectErr :=
  match dialOutcome with
  | none => ([], none, some ConnectErr.dialFailed)
  | some _conn =>
    if reg.transport = MinTransport then
      ([conjureHMAC reg.keys.SharedSecret minTransportContext], none, none)
    else if reg.transport = Obfs4Transport then
      ([], none, some ConnectErr.notImplemented)
    else
      ([conjureHMAC reg.keys.SharedSecret minTransportContext], none, none)

/-! Payload construction: generateVSP, generateFSP, createRequest. -/

/-- Base-128 varint encoder, least significant group first; the first
argument is fuel, instantiated with the value itself (the value shrinks by a
factor 128 per step, so this fuel always suffices). -/
def varintAux : Nat → Nat → List Nat
  | 0, n => [n]
  | fuel + 1, n => if n < 128 then [n] else (n % 128 + 128) :: varintAux fuel (n / 128)

/-- Protobuf base-128 varint encoding of a natural number. -/
def varint (n : Nat) : List Nat := varintAux n n

/-- Header byte and payload of a length-delimited protobuf field (wire type
2); field numbers used here stay below 16 so the header is one byte. -/
def lenDelimField (fieldNo : Nat) (payload : List Nat) : List Nat :=
  ((fieldNo <<< 3) ||| 2) :: (varint payload.length ++ payload)

/-- A varint-typed protobuf field (wire type 0). -/
def varintField (fieldNo : Nat) (v : Nat) : List Nat := (fieldNo <<< 3) :: varint v

/-- A length-delimited field that is absent when unset. -/
def optBytesField (fieldNo : Nat) (v : Option (List Nat)) : List Nat :=
  match v with
  | none => []
  | some p => lenDelimField fieldNo p

/-- The ClientToStation fields conjure.go populates.  Modelled from the spec:
the protobuf message type lives outside src; the spec fixes the field set
(covert_address, decoy_list_generation, v6_support, masked_decoy_server_name,
padding) but leaves the schema to the implementation. -/
structure ClientToStation where
  CovertAddress : Option (List Nat)
  DecoyListGeneration : Nat
  V6Support : Bool
  MaskedDecoyServerName : Option (List Nat)
  Padding : List Nat
deriving DecidableEq

/-- Modelled from the spec: proto.Marshal of ClientToStation over the field
set above, with field numbers 1 to 5 (any stable schema works per the spec).
The optional string fields and the padding bytes are omitted when unset or
empty, as for proto2 unset fields. -/
def c2sMarshal (m : ClientToStation) : List Nat :=
  optBytesField 1 m.CovertAddress ++
  varintField 2 m.DecoyListGeneration ++
  varintField 3 (if m.V6Support then 1 else 0) ++
  optBytesField 4 m.MaskedDecoyServerName ++
  (if m.Padding.isEmpty then [] else lenDelimField 5 m.Padding)

/-- Modelled from the spec: proto.Size, the length of the serialization. -/
def c2sSize (m : ClientToStation) : Nat := (c2sMarshal m).length

/-- AES_GCM_TAG_SIZE, the 16-byte AEAD tag length.  Modelled from the spec:
the constant is declared outside src. -/
def AES_GCM_TAG_SIZE : Nat := 16

/-- The padding loop of generateVSP: append zero bytes to the padding field
until serialized size plus tag size is divisible by 3.  With no padding the
field is absent; padding of n bytes (1 to 127) serializes to n + 2 bytes, so
the loop leaves size residues unchanged on its first append and then moves
them by one per append; the least fixed point is reached within three
appends, which this unrolled form enumerates in loop order. -/
def vspPadCount (base : Nat) : Nat :=
  if (base + AES_GCM_TAG_SIZE) % 3 = 0 then 0
  else if (base + 3 + AES_GCM_TAG_SIZE) % 3 = 0 then 1
  else if (base + 4 + AES_GCM_TAG_SIZE) % 3 = 0 then 2
  else 3

/-- ConjureReg.generateVSP from conjure.go: build the ClientToStation message
(covert address when non-empty, current generation, v6 flag, masked SNI when
non-empty), pad it until size plus AEAD tag size is divisible by 3, and
marshal it.  The generation counter comes from the asset snapshot and is
passed as a parameter. -/
def generateVSP (reg : ConjureRegGo) (currentGen : Nat) : List Nat :=
  let covert := if 0 < (strBytes reg.covertAddress).length then some (strBytes reg.covertAddress) else none
  let sni := if 0 < (strBytes reg.phantomSNI).length then some (strBytes reg.phantomSNI) else none
  let m0 : ClientToStation :=
    { CovertAddress := covert
      DecoyListGeneration := currentGen
      V6Support := reg.v6Support
      MaskedDecoyServerName := sni
      Padding := [] }
  c2sMarshal { m0 with Padding := List.replicate (vspPadCount (c2sSize m0)) 0 }

/-- default_flags, the FSP flag byte before ORing.  Modelled from the spec:
an implementation-supplied constant declared outside src (the TIL bit in the
implementation); no claim depends on its value. -/
def default_flags : Nat := 1

/-- tdFlagProxyHeader, the PROXY-header flag bit.  Modelled from the spec:
declared outside src; no claim depends on its value. -/
def tdFlagProxyHeader : Nat := 2

/-- ConjureReg.generateFSP from conjure.go: a six-byte buffer with the
big-endian uint16 ciphertext-VSP length in bytes 0..1, the flag byte in byte
2 (default flags, ORed with the proxy-header bit when requested), zeros in
bytes 3..5.  The caller passes espSize already reduced to uint16. -/
def generateFSP (useProxyHeader : Bool) (espSize : Nat) : List Nat :=
  [espSize / 256 % 256, espSize % 256,
   if useProxyHeader then default_flags ||| tdFlagProxyHeader else default_flags, 0, 0, 0]

/-- Modelled from the spec: a keystream byte for the AES-GCM model below;
the spec pins AES-128-GCM only by shape (same-length ciphertext plus a
16-byte tag appended), so the cipher permutation is modelled as a PRF built
from the HMAC already defined. -/
def gcmStreamByte (key iv : List Nat) (i : Nat) : Nat :=
  (hmacSha256 key (iv ++ [i % 256, i / 256 % 256])).headD 0

/-- Modelled from the spec: aesGcmEncrypt (declared outside src).  AEAD seal:
a ciphertext of the plaintext's length, then a 16-byte tag.  Only this shape
is pinned by the spec and used by any claim. -/
def aesGcmEncrypt (pt key iv : List Nat) : List Nat :=
  pt.zipWith (fun a b => a ^^^ b) ((List.range pt.length).map (gcmStreamByte key iv)) ++
  (hmacSha256 (key ++ iv) pt).take 16

/-- Modelled from the spec: generateHTTPRequestBeginning (declared outside
src), a plausible HTTP GET beginning naming the decoy host. -/
def httpGetPart : String := "GET / HTTP/1.1\r\nHost: "

/-- Header terminator of the modelled HTTP beginning. -/
def crlfStr : String := "\r\n"

/-- Trailing empty line appended after the encoded tag. -/
def crlf2Str : String := "\r\n\r\n"

/-- Modelled from the spec: the HTTP request beginning written before the
masked tag. -/
def generateHTTPRequestBeginning (hostname : String) : List Nat :=
  strBytes httpGetPart ++ strBytes hostname ++ strBytes crlfStr

/-- Modelled from the spec: the 3-bytes-to-4-six-bit-groups regrouping of
reverseEncrypt (big-endian, as in base64). -/
def sixBitGroups : List Nat → List Nat
  | b0 :: b1 :: b2 :: rest =>
    (b0 >>> 2) :: (((b0 &&& 3) <<< 4) ||| (b1 >>> 4)) ::
    (((b1 &&& 15) <<< 2) ||| (b2 >>> 6)) :: (b2 &&& 63) :: sixBitGroups rest
  | _ => []

/-- Modelled from the spec: reverseEncrypt (declared outside src).  Each
six-bit group g and keystream byte k yield an output byte whose XOR with k
carries g in the low six bits; the spec leaves the printable-making top bits
to the implementation, modelled here by setting bit 6. -/
def reverseEncrypt (tag keystream : List Nat) : List Nat :=
  (sixBitGroups tag).zipWith (fun g k => ((g ^^^ k) &&& 63) ||| 64) keystream

/-- Observable effects of the send path, in program order. -/
inductive SendEvent where
  | sealAead
  | netWrite
deriving DecidableEq

/-- The only error createRequest raises itself (the spec's PayloadTooLarge). -/
inductive CreateReqErr where
  | payloadTooLarge
deriving DecidableEq

/-- ConjureReg.createRequest from conjure.go: generate the VSP, fail with
PayloadTooLarge when it exceeds 0xFFFF bytes, otherwise seal VSP and FSP,
assemble the tag enc_VSP plus Representative plus enc_FSP, and embed its
reverse-encryption into the HTTP beginning using the outbound TLS keystream
(GetOutKeystream is an external capability, passed as a function from the
requested size to the bytes; its possible error and the AEAD errors have no
failing case in the model, faithful to a non-failing TLS/AEAD run).  Returns
the AEAD seal events performed in order, and either the error or the pair of
the instrumented tag and the returned request bytes. -/
def createRequestGo (reg : ConjureRegGo) (decoyHostname : String) (currentGen : Nat)
    (outKeystream : Nat → List Nat) :
    List SendEvent × Except CreateReqErr (List Nat × List Nat) :=
  let vsp := generateVSP reg currentGen
  if 65535 < vsp.length then ([], Except.error CreateReqErr.payloadTooLarge)
  else
    let encryptedVsp := aesGcmEncrypt vsp reg.keys.VspKey reg.keys.VspIv
    let fsp := generateFSP reg.useProxyHeader (encryptedVsp.length % 65536)
    let encryptedFsp := aesGcmEncrypt fsp reg.keys.FspKey reg.keys.FspIv
    let tag := encryptedVsp ++ reg.keys.Representative ++ encryptedFsp
    let httpRequest := generateHTTPRequestBeginning decoyHostname
    let keystreamOffset := httpRequest.length
    let keystreamSize := (tag.length / 3 + 1) * 4 + keystreamOffset
    let wholeKeystream := outKeystream keystreamSize
    let keystreamAtTag := wholeKeystream.drop keystreamOffset
    ([SendEvent.sealAead, SendEvent.sealAead],
     Except.ok (tag, httpRequest ++ reverseEncrypt tag keystreamAtTag ++ strBytes crlf2Str))

/-- The value a registration goroutine posts to the dialErrors channel after
the TLS handshake: nil on a successful write, the createRequest error, or the
write error. -/
inductive PostedResult where
  | success
  | payloadTooLarge
  | writeFailure
deriving DecidableEq

/-- The tail of ConjureReg.send after a successful TCP dial and TLS handshake
(lines building and writing the request): createRequest, then the TLS write,
whose success is an external event passed as writeOk.  Returns the seal and
network-write events in program order and the posted channel value. -/
def sendAfterTLSGo (reg : ConjureRegGo) (decoyHostname : String) (currentGen : Nat)
    (outKeystream : Nat → List Nat) (writeOk : Bool) : List SendEvent × PostedResult :=
  match createRequestGo reg decoyHostname currentGen outKeystream with
  | (evs, Except.error _) => (evs, PostedResult.payloadTooLarge)
  | (evs, Except.ok _) =>
    if writeOk then (evs ++ [SendEvent.netWrite], PostedResult.success)
    else (evs ++ [SendEvent.netWrite], PostedResult.writeFailure)

/-! Concrete sample values used by witnesses and counterexamples. -/

/-- A sample decoy. -/
def sampleDecoy : TLSDecoySpec where
  hostname := "decoy.example.com"
  ipAddrStr := "192.0.2.10:443"

/-- A sample key bundle with the field widths the key engine produces. -/
def sampleKeys : SharedKeysGo where
  SharedSecret := List.replicate 32 0
  Representative := List.replicate 32 5
  FspKey := List.replicate 16 1
  FspIv := List.replicate 12 2
  VspKey := List.replicate 16 3
  VspIv := List.replicate 12 4
  NewMasterSecret := List.replicate 48 6
  ConjureSeed := List.replicate 16 7

/-- A sample session of width 1 over the v4 family. -/
def sampleSession : ConjureSessionGo where
  Keys := some sampleKeys
  Width := 1
  V6Support := { support := false, v6Include := 0 }
  UseProxyHeader := false
  SessionID := 1
  Phantom := none
  Transport := 0
  CovertAddress := ""

/-- A sample asset snapshot holding one v4 decoy. -/
def sampleAssets : AssetState where
  v4Decoys := [sampleDecoy]
  v6Decoys := []
  allDecoys := [sampleDecoy]
  generation := 7

/-- An asset snapshot with empty decoy pools. -/
def emptyAssets : AssetState where
  v4Decoys := []
  v6Decoys := []
  allDecoys := []
  generation := 0

/-- A sample phantom address. -/
def samplePhantom : List Nat := [192, 122, 190, 130]

/-- A sample registration with Min transport. -/
def sampleRegMin : ConjureRegGo where
  seed := []
  sessionIDStr := "[1-000000]"
  phantom := some samplePhantom
  useProxyHeader := false
  covertAddress := "covert.example.net:443"
  phantomSNI := ""
  v6Support := false
  transport := 0
  keys := sampleKeys

/-- The sample registration with Null transport. -/
def sampleRegNull : ConjureRegGo := { sampleRegMin with transport := 1 }

/-- The registration literal that register builds from the sample session. -/
def sampleProducedReg : ConjureRegGo where
  seed := []
  sessionIDStr := idString sampleSession
  phantom := some samplePhantom
  useProxyHeader := false
  covertAddress := ""
  phantomSNI := ""
  v6Support := false
  transport := 0
  keys := sampleKeys

/-- A 70000-character covert address for the payload-size bound. -/
def oversizedCovert : String := String.mk (List.replicate 70000 'a')

/-- The sample registration carrying the oversized covert address. -/
def oversizedReg : ConjureRegGo := { sampleRegMin with covertAddress := oversizedCovert }

/-- Keys whose shared secret is thirty-two 0xab bytes. -/
def abKeys : SharedKeysGo := { sampleKeys with SharedSecret := List.replicate 32 171 }

/-- The sample session holding the 0xab secret. -/
def abSession : ConjureSessionGo := { sampleSession with Keys := some abKeys }

/-! Helper lemmas. -/

/-- The SHA-256 digest is eight big-endian words, 32 bytes. -/
theorem digestBytes_length (s : Hash8) : (digestBytes s).length = 32 := rfl

/-- SHA-256 always produces 32 bytes. -/
theorem sha256_length (msg : List Nat) : (sha256 msg).length = 32 := digestBytes_length _

/-- HMAC-SHA256 always produces 32 bytes. -/
theorem hmacSha256_length (key msg : List Nat) : (hmacSha256 key msg).length = 32 :=
  sha256_length _

/-- Hex encoding yields two characters per byte. -/
theorem hexEncode_length (bs : List Nat) : (hexEncode bs).length = 2 * bs.length := by
  have core : ∀ l : List Nat,
      (l.foldr (fun b acc => hexDigit (b >>> 4) :: hexDigit (b % 16) :: acc) []).length =
        2 * l.length := by
    intro l
    induction l with
    | nil => rfl
    | cons b rest ih => simp [List.foldr, ih]; omega
  simpa [hexEncode, String.length] using core bs

/-! Claim C1 (code bug): the registration-level Connect is specified to return
the live phantom connection with a nil error, but conjure.go line 384 ends
every non-Obfs4 success path with a literal return nil, nil, so the caller
receives a nil connection. -/

/-- Claim C1: at a concrete Min-transport registration whose phantom dial
succeeded, ConjureReg.Connect writes the Min tag but returns a nil connection
and a nil error instead of the live connection the spec promises. -/
theorem c1_connect_returns_nil_conn :
    sampleRegMin.transport ≠ Obfs4Transport ∧
    connectReg sampleRegMin (some 7) =
      ([conjureHMAC sampleKeys.SharedSecret minTransportContext], none, none) :=
  ⟨by decide, rfl⟩

/-! Claim C2 (code bug): the switch in ConjureReg.Connect has no NullTransport
arm; the Null value falls into the default arm and the Min tag is written,
although NullTransport is documented to leave the connection untouched. -/

/-- Claim C2: at a concrete Null-transport registration whose phantom dial
succeeded, ConjureReg.Connect writes the 32-byte Min HMAC tag rather than
writing nothing. -/
theorem c2_null_transport_writes_min_tag :
    sampleRegNull.transport = NullTransport ∧
    (connectReg sampleRegNull (some 7)).1 =
      [conjureHMAC sampleKeys.SharedSecret minTransportContext] ∧
    (connectReg sampleRegNull (some 7)).1 ≠ ([] : List (List Nat)) :=
  ⟨rfl, rfl, fun h => List.noConfusion h⟩

/-- Claim C3: for a successful phantom dial under any transport other than
Null and Obfs4, the bytes written are exactly the 32-byte
HMAC-SHA256(SharedSecret, MinTrasportHMACString), the context string being
byte-exact with its typo. -/
theorem c3_min_transport_tag (reg : ConjureRegGo) (conn : Nat)
    (_hNull : reg.transport ≠ NullTransport) (hObfs : reg.transport ≠ Obfs4Transport) :
    (connectReg reg (some conn)).1 =
      [hmacSha256 reg.keys.SharedSecret (strBytes minTransportContext)] ∧
    (hmacSha256 reg.keys.SharedSecret (strBytes minTransportContext)).length = 32 ∧
    strBytes minTransportContext =
      [77, 105, 110, 84, 114, 97, 115, 112, 111, 114, 116, 72, 77, 65, 67, 83,
       116, 114, 105, 110, 103] := by
  refine ⟨?_, hmacSha256_length _ _, by decide⟩
  have h : connectReg reg (some conn) =
      ([hmacSha256 reg.keys.SharedSecret (strBytes minTransportContext)], none, none) := by
    unfold connectReg
    by_cases h0 : reg.transport = MinTransport
    · rw [if_pos h0]
      rfl
    · rw [if_neg h0, if_neg hObfs]
      rfl
  rw [h]

/-- Witness for C3 at the sample Min-transport registration. -/
theorem c3_min_transport_tag_witness :
    sampleRegMin.transport ≠ NullTransport ∧ sampleRegMin.transport ≠ Obfs4Transport ∧
    ((connectReg sampleRegMin (some 7)).1 =
        [hmacSha256 sampleRegMin.keys.SharedSecret (strBytes minTransportContext)] ∧
      (hmacSha256 sampleRegMin.keys.SharedSecret (strBytes minTransportContext)).length = 32 ∧
      strBytes minTransportContext =
        [77, 105, 110, 84, 114, 97, 115, 112, 111, 114, 116, 72, 77, 65, 67, 83,
         116, 114, 105, 110, 103]) :=
  ⟨by decide, by decide, c3_min_transport_tag sampleRegMin 7 (by decide) (by decide)⟩

/-- Claim C5 counterexample: with an empty family pool and width 1,
SelectDecoys does not return an empty slice; it reaches big.Int.Mod with a
zero modulus, a division-by-zero panic (modelled none). -/
theorem c5_empty_pool_counterexample :
    selectDecoys [] famV4 1 emptyAssets = none ∧
    selectDecoys [] famV4 1 emptyAssets ≠ some [] := by
  constructor
  · decide
  · decide

/-- Claim C5, amended: with an empty pool the selection returns the empty
slice only for width 0; any positive width faults on the zero-modulus
reduction. -/
theorem c5_empty_pool_amended (ss : List Nat) (version width : Nat) (assets : AssetState)
    (hpool : decoyPoolFor version assets = []) :
    (width = 0 → selectDecoys ss version width assets = some []) ∧
    (0 < width → selectDecoys ss version width assets = none) := by
  constructor
  · intro h0
    subst h0
    unfold selectDecoys selectDecoysFrom
    rw [hpool]
    rfl
  · intro hw
    obtain ⟨n, rfl⟩ : ∃ n, width = n + 1 := ⟨width - 1, by omega⟩
    unfold selectDecoys selectDecoysFrom
    rw [hpool, List.range_succ_eq_map]
    simp [selectLoop]

/-- Witness for the amended C5 at concrete empty pools and widths 0 and 3. -/
theorem c5_empty_pool_amended_witness :
    decoyPoolFor famV4 emptyAssets = [] ∧
    selectDecoys [] famV4 0 emptyAssets = some [] ∧
    selectDecoys [] famV4 3 emptyAssets = none :=
  ⟨rfl, (c5_empty_pool_amended [] famV4 0 emptyAssets rfl).1 rfl,
    (c5_empty_pool_amended [] famV4 3 emptyAssets rfl).2 (by decide)⟩

/-- Claim C9 counterexample: IDString renders the first six hex characters of
the shared secret, not the first twelve: a 0xab-filled secret in session 1
yields the bracketed id with ababab, not abababababab. -/
theorem c9_idstring_counterexample :
    idString abSession = "[1-ababab]" ∧ idString abSession ≠ "[1-abababababab]" := by
  constructor
  · decide
  · decide

/-- Claim C9, amended: IDString is the decimal session id plus the first six
hex characters of the shared secret once keys with at least a 3-byte secret
exist, and the 000000 placeholder when the keys pointer is nil or the secret
is shorter than 3 bytes. -/
theorem c9_idstring_amended (s : ConjureSessionGo) :
    (s.Keys = none → idString s = idOpen ++ Nat.repr s.SessionID ++ idZeroSecret) ∧
    (∀ k, s.Keys = some k → k.SharedSecret.length < 3 →
      idString s = idOpen ++ Nat.repr s.SessionID ++ idZeroSecret) ∧
    (∀ k, s.Keys = some k → 3 ≤ k.SharedSecret.length →
      idString s = idOpen ++ Nat.repr s.SessionID ++ idSep ++
        (hexEncode k.SharedSecret).take 6 ++ idClose) := by
  refine ⟨fun h => by simp [idString, h], fun k hk hlen => ?_, fun k hk hlen => ?_⟩
  · have hx : (hexEncode k.SharedSecret).length < 6 := by
      rw [hexEncode_length]; omega
    simp [idString, hk, hx]
  · have hx : ¬ (hexEncode k.SharedSecret).length < 6 := by
      rw [hexEncode_length]; omega
    simp [idString, hk, hx]

/-- Witness for the amended C9 at the 0xab-secret session. -/
theorem c9_idstring_amended_witness :
    abSession.Keys = some abKeys ∧ 3 ≤ abKeys.SharedSecret.length ∧
    idString abSession = idOpen ++ Nat.repr abSession.SessionID ++ idSep ++
      (hexEncode abKeys.SharedSecret).take 6 ++ idClose :=
  ⟨rfl, by decide, (c9_idstring_amended abSession).2.2 abKeys rfl (by decide)⟩

/-- On a non-empty pool the selection loop never faults and draws each index
independently by the HMAC formula. -/
theorem selectLoop_eq_map (ss : List Nat) (pool : List TLSDecoySpec) (h : 0 < pool.length) :
    ∀ is : List Nat, selectLoop ss pool is =
      some (is.map fun i => pool.get ⟨decoyIdx ss i pool.length, Nat.mod_lt _ h⟩) := by
  intro is
  induction is with
  | nil => rfl
  | cons i rest ih => simp [selectLoop, dif_pos h, ih]

/-- Element access of a map over a range below the bound. -/
theorem getD_map_range {α : Type} (f : Nat → α) (w i : Nat) (d : α) (h : i < w) :
    ((List.range w).map f).getD i d = f i := by
  have hlen : i < ((List.range w).map f).length := by simpa using h
  rw [List.getD_eq_getElem _ _ hlen, List.getElem_map, List.getElem_range]

/-- Claim C6: with a fixed non-empty pool for the chosen family, SelectDecoys
succeeds, returns exactly width decoys, and the i-th is the pool entry at
index HMAC-SHA256(shared_secret, registrationdecoy plus decimal i), read as a
big-endian unsigned integer and reduced mod the pool size (Abs is a no-op on
that non-negative value); the result is a pure function of the inputs, being
fully determined by this formula. -/
theorem c6_select_decoys_formula (ss : List Nat) (version w : Nat) (assets : AssetState)
    (hpool : decoyPoolFor version assets ≠ []) :
    ∃ ds, selectDecoys ss version w assets = some ds ∧ ds.length = w ∧
      ∀ (d : TLSDecoySpec) (i : Nat), i < w →
        ds.getD i d = (decoyPoolFor version assets).getD
          (beNat (hmacSha256 ss (strBytes (registrationDecoyContext ++ Nat.repr i))) %
            (decoyPoolFor version assets).length) d := by
  have hlen : 0 < (decoyPoolFor version assets).length := List.length_pos.mpr hpool
  refine ⟨(List.range w).map (fun i => (decoyPoolFor version assets).get
      ⟨decoyIdx ss i (decoyPoolFor version assets).length, Nat.mod_lt _ hlen⟩), ?_, by simp, ?_⟩
  · exact selectLoop_eq_map ss (decoyPoolFor version assets) hlen (List.range w)
  · intro d i hi
    rw [getD_map_range _ _ _ _ hi,
      List.getD_eq_getElem _ _ (Nat.mod_lt _ hlen)]
    rfl

/-- Witness for C6: two draws from the one-decoy v4 pool of the sample
assets. -/
theorem c6_select_decoys_formula_witness :
    decoyPoolFor famV4 sampleAssets ≠ [] ∧
    (∃ ds, selectDecoys (List.replicate 32 0) famV4 2 sampleAssets = some ds ∧ ds.length = 2 ∧
      ∀ (d : TLSDecoySpec) (i : Nat), i < 2 →
        ds.getD i d = (decoyPoolFor famV4 sampleAssets).getD
          (beNat (hmacSha256 (List.replicate 32 0)
              (strBytes (registrationDecoyContext ++ Nat.repr i))) %
            (decoyPoolFor famV4 sampleAssets).length) d) :=
  ⟨by decide, c6_select_decoys_formula (List.replicate 32 0) famV4 2 sampleAssets (by decide)⟩

/-- A successful selection returns one decoy per requested index. -/
theorem selectLoop_some_length (ss : List Nat) (pool : List TLSDecoySpec) :
    ∀ (is : List Nat) (ds : List TLSDecoySpec),
      selectLoop ss pool is = some ds → ds.length = is.length := by
  intro is
  induction is with
  | nil =>
    intro ds h
    simp only [selectLoop, Option.some.injEq] at h
    subst h
    rfl
  | cons i rest ih =>
    intro ds h
    simp only [selectLoop] at h
    by_cases hp : 0 < pool.length
    · rw [dif_pos hp] at h
      cases hrec : selectLoop ss pool rest with
      | none => rw [hrec] at h; simp at h
      | some tail =>
        rw [hrec] at h
        simp only [Option.some.injEq] at h
        subst h
        simp [ih tail hrec]
    · rw [dif_neg hp] at h
      simp at h

/-- Draining an all-Unreachable result list tallies up to the width and
consumes every result. -/
theorem drain_all_unreachable (width : Nat) :
    ∀ (rs : List DialRes) (cnt : Nat), (∀ r ∈ rs, r = DialRes.unreachable) →
      cnt + rs.length = width → drainDialErrors width rs cnt = (width, rs.length) := by
  intro rs
  induction rs with
  | nil =>
    intro cnt _ hw
    simp only [drainDialErrors]
    simp at hw
    simp [hw]
  | cons r rest ih =>
    intro cnt hall hw
    have hr : r = DialRes.unreachable := hall r (by simp)
    subst hr
    simp only [drainDialErrors, if_pos rfl]
    by_cases hcw : cnt + 1 < width
    · rw [if_pos hcw, ih (cnt + 1) (fun x hx => hall x (by simp [hx])) (by simp at hw; omega)]
      simp
    · rw [if_neg hcw]
      simp at hw
      have h1 : cnt + 1 = width := by omega
      have h2 : rest.length = 0 := by omega
      simp [h1, h2]

/-- Draining stops at the first non-Unreachable result: with the first i
results Unreachable and the i-th not, the tally is i and exactly i + 1
results are consumed. -/
theorem drain_first_break (width : Nat) :
    ∀ (rs : List DialRes) (cnt i : Nat) (hi : i < rs.length),
      (∀ j (hj : j < i), rs.get ⟨j, by omega⟩ = DialRes.unreachable) →
      rs.get ⟨i, hi⟩ ≠ DialRes.unreachable →
      cnt + rs.length = width →
      drainDialErrors width rs cnt = (cnt + i, i + 1) := by
  intro rs
  induction rs with
  | nil =>
    intro cnt i hi
    exact absurd hi (by simp)
  | cons r rest ih =>
    intro cnt i hi hpre hcur hw
    cases i with
    | zero =>
      have hr : r ≠ DialRes.unreachable := hcur
      simp [drainDialErrors, if_neg hr]
    | succ j =>
      have hr : r = DialRes.unreachable := hpre 0 (Nat.succ_pos j)
      subst hr
      have hj : j < rest.length := by simpa using hi
      have hlt : cnt + 1 < width := by simp at hw; omega
      simp only [drainDialErrors, if_pos rfl, if_pos hlt]
      rw [ih (cnt + 1) j hj (fun m hm => hpre (m + 1) (by omega)) hcur (by simp at hw; omega)]
      simp
      omega

/-- A result list that is not all Unreachable has a first non-Unreachable
position. -/
theorem exists_first_break (rs : List DialRes)
    (h : ¬ ∀ r ∈ rs, r = DialRes.unreachable) :
    ∃ i, ∃ hi : i < rs.length,
      (∀ j (hj : j < i), rs.get ⟨j, by omega⟩ = DialRes.unreachable) ∧
      rs.get ⟨i, hi⟩ ≠ DialRes.unreachable := by
  induction rs with
  | nil => simp at h
  | cons r rest ih =>
    by_cases hr : r = DialRes.unreachable
    · have hrest : ¬ ∀ x ∈ rest, x = DialRes.unreachable := by
        intro hall
        refine h fun x hx => ?_
        rcases List.mem_cons.mp hx with h1 | h2
        · exact h1 ▸ hr
        · exact hall x h2
      obtain ⟨i, hi, hpre, hcur⟩ := ih hrest
      refine ⟨i + 1, by simpa using Nat.succ_lt_succ hi, fun j hj => ?_, hcur⟩
      cases j with
      | zero => exact hr
      | succ m => exact hpre m (by omega)
    · exact ⟨0, by simp, fun j hj => absurd hj (Nat.not_lt_zero j), hr⟩

/-- Reduction of register once keys and decoys resolve: the outcome is decided
by the drain loop over the channel results. -/
theorem register_reduce (s : ConjureSessionGo) (assets : AssetState) (p : List Nat)
    (results : List DialRes) (k : SharedKeysGo) (ds : List TLSDecoySpec)
    (hk : s.Keys = some k)
    (hsel : selectDecoys k.SharedSecret s.V6Support.v6Include s.Width assets = some ds) :
    register s assets (some p) results =
      (if (drainDialErrors ds.length results 0).1 = ds.length
       then some (RegOutcome.errUnreachable, (drainDialErrors ds.length results 0).2)
       else some (RegOutcome.ok
          { seed := []
            sessionIDStr := idString s
            phantom := some p
            useProxyHeader := false
            covertAddress := s.CovertAddress
            phantomSNI := ""
            v6Support := s.V6Support.support
            transport := 0
            keys := k }, (drainDialErrors ds.length results 0).2)) := by
  unfold register
  rw [hk]
  dsimp only
  rw [hsel]

/-- Claim C4: with width at least 1 and one channel result per decoy, register
fails with Unreachable exactly when every result is Unreachable, and on the
first success or non-Unreachable error it stops draining (consuming exactly
the results up to that point) and returns, with a nil error, a registration
sharing the session's keys, phantom, covert address and v6 flag. -/
theorem c4_register_unreachable_tally (s : ConjureSessionGo) (assets : AssetState)
    (p : List Nat) (results : List DialRes) (k : SharedKeysGo) (ds : List TLSDecoySpec)
    (hk : s.Keys = some k)
    (hsel : selectDecoys k.SharedSecret s.V6Support.v6Include s.Width assets = some ds)
    (_hw : 0 < s.Width)
    (hlen : results.length = s.Width) :
    (register s assets (some p) results = some (RegOutcome.errUnreachable, results.length)
      ↔ ∀ r ∈ results, r = DialRes.unreachable) ∧
    (∀ i (hi : i < results.length),
      (∀ j (hj : j < i), results.get ⟨j, by omega⟩ = DialRes.unreachable) →
      results.get ⟨i, hi⟩ ≠ DialRes.unreachable →
      ∃ reg, register s assets (some p) results = some (RegOutcome.ok reg, i + 1) ∧
        reg.keys = k ∧ reg.phantom = some p ∧ reg.covertAddress = s.CovertAddress ∧
        reg.v6Support = s.V6Support.support) := by
  have hdsl : ds.length = s.Width := by
    have h := selectLoop_some_length k.SharedSecret
      (decoyPoolFor s.V6Support.v6Include assets) (List.range s.Width) ds hsel
    simpa using h
  have hreduce := register_reduce s assets p results k ds hk hsel
  constructor
  · by_cases hall : ∀ r ∈ results, r = DialRes.unreachable
    · have hdr := drain_all_unreachable ds.length results 0 hall (by omega)
      rw [hreduce, hdr]
      exact ⟨fun _ => hall, fun _ => by simp⟩
    · obtain ⟨i, hi, hpre, hcur⟩ := exists_first_break results hall
      have hdr := drain_first_break ds.length results 0 i hi hpre hcur (by omega)
      rw [hreduce, hdr]
      have hne : i ≠ ds.length := by omega
      refine ⟨fun heq => ?_, fun hall2 => absurd hall2 hall⟩
      simp [hne] at heq
  · intro i hi hpre hcur
    have hdr := drain_first_break ds.length results 0 i hi hpre hcur (by omega)
    rw [hreduce, hdr]
    have hne : ¬ (0 + i = ds.length) := by omega
    rw [if_neg hne]
    exact ⟨_, rfl, rfl, rfl, rfl, rfl⟩

/-- Witness for C4 at the sample session, one decoy, one successful result. -/
theorem c4_register_unreachable_tally_witness :
    (register sampleSession sampleAssets (some samplePhantom) [DialRes.success] =
        some (RegOutcome.errUnreachable, 1) ↔
      ∀ r ∈ [DialRes.success], r = DialRes.unreachable) ∧
    (∃ reg, register sampleSession sampleAssets (some samplePhantom) [DialRes.success] =
        some (RegOutcome.ok reg, 1) ∧
      reg.keys = sampleKeys ∧ reg.phantom = some samplePhantom ∧
      reg.covertAddress = sampleSession.CovertAddress ∧
      reg.v6Support = sampleSession.V6Support.support) := by
  have h := c4_register_unreachable_tally sampleSession sampleAssets samplePhantom
    [DialRes.success] sampleKeys [sampleDecoy] rfl (by decide) (by decide) rfl
  refine ⟨by simpa using h.1, ?_⟩
  have h2 := h.2 0 (by decide) (fun j hj => absurd hj (Nat.not_lt_zero j)) (by decide)
  simpa using h2

/-- Claim C10: every registration that register produces keeps transport and
useProxyHeader at their Go zero values (MinTransport, false), so generateFSP
never ORs in the proxy-header bit and Connect takes the Min-transport write
path. -/
theorem c10_register_zero_transport (s : ConjureSessionGo) (assets : AssetState)
    (p : Option (List Nat)) (results : List DialRes) (reg : ConjureRegGo) (consumed : Nat)
    (h : register s assets p results = some (RegOutcome.ok reg, consumed)) :
    reg.transport = MinTransport ∧ reg.useProxyHeader = false ∧
    (∀ espSize, (generateFSP reg.useProxyHeader espSize).getD 2 0 = default_flags) ∧
    (∀ conn, (connectReg reg (some conn)).1 =
      [conjureHMAC reg.keys.SharedSecret minTransportContext]) := by
  unfold register at h
  cases hK : s.Keys with
  | none => rw [hK] at h; simp at h
  | some k =>
    rw [hK] at h
    dsimp only at h
    cases hsel : selectDecoys k.SharedSecret s.V6Support.v6Include s.Width assets with
    | none => rw [hsel] at h; simp at h
    | some ds =>
      rw [hsel] at h
      dsimp only at h
      cases p with
      | none => simp at h
      | some phantom =>
        dsimp only at h
        split at h
        · simp at h
        · simp only [Option.some.injEq, Prod.mk.injEq] at h
          obtain ⟨hreg, _⟩ := h
          injection hreg with h2
          subst h2
          exact ⟨rfl, rfl, fun espSize => rfl, fun conn => rfl⟩

/-- Witness for C10: the concrete registration produced from the sample
session has the zero-valued transport fields. -/
theorem c10_register_zero_transport_witness :
    register sampleSession sampleAssets (some samplePhantom) [DialRes.success] =
      some (RegOutcome.ok sampleProducedReg, 1) ∧
    (sampleProducedReg.transport = MinTransport ∧ sampleProducedReg.useProxyHeader = false ∧
      (∀ espSize, (generateFSP sampleProducedReg.useProxyHeader espSize).getD 2 0 =
        default_flags) ∧
      (∀ conn, (connectReg sampleProducedReg (some conn)).1 =
        [conjureHMAC sampleProducedReg.keys.SharedSecret minTransportContext])) := by
  have h : register sampleSession sampleAssets (some samplePhantom) [DialRes.success] =
      some (RegOutcome.ok sampleProducedReg, 1) := by decide
  exact ⟨h, c10_register_zero_transport sampleSession sampleAssets (some samplePhantom)
    [DialRes.success] sampleProducedReg 1 h⟩

/-- A varint of a value below 128 is the single byte itself. -/
theorem varint_small (n : Nat) (h : n < 128) : varint n = [n] := by
  cases n with
  | zero => rfl
  | succ m => simp [varint, varintAux, h]

/-- The modelled AEAD seal appends exactly 16 tag bytes. -/
theorem aesGcmEncrypt_length (pt key iv : List Nat) :
    (aesGcmEncrypt pt key iv).length = pt.length + 16 := by
  simp [aesGcmEncrypt, hmacSha256_length]

/-- The FSP buffer is six bytes. -/
theorem generateFSP_length (u : Bool) (espSize : Nat) : (generateFSP u espSize).length = 6 := rfl

/-- The padding loop postcondition over explicit message fields: after
padding, serialized size plus tag size is divisible by 3. -/
theorem mk_padded_mod3 (cov : Option (List Nat)) (g : Nat) (v6 : Bool)
    (sni : Option (List Nat)) :
    ((c2sMarshal ⟨cov, g, v6, sni,
        List.replicate (vspPadCount (c2sSize ⟨cov, g, v6, sni, []⟩)) 0⟩).length +
      AES_GCM_TAG_SIZE) % 3 = 0 := by
  have hbase0 : (c2sMarshal ⟨cov, g, v6, sni, []⟩).length = c2sSize ⟨cov, g, v6, sni, []⟩ := rfl
  set base := c2sSize ⟨cov, g, v6, sni, []⟩ with hbase
  have hpad : ∀ k, 0 < k → k < 128 →
      (c2sMarshal ⟨cov, g, v6, sni, List.replicate k 0⟩).length = base + k + 2 := by
    intro k hk1 hk2
    have hne : (List.replicate k (0 : Nat)).isEmpty = false := by
      cases k with
      | zero => omega
      | succ m => simp [List.replicate]
    have hlen : (lenDelimField 5 (List.replicate k 0)).length = k + 2 := by
      simp [lenDelimField, varint_small k hk2]
    have hmar : c2sMarshal ⟨cov, g, v6, sni, List.replicate k 0⟩ =
        c2sMarshal ⟨cov, g, v6, sni, []⟩ ++ lenDelimField 5 (List.replicate k 0) := by
      simp [c2sMarshal, hne, List.append_assoc]
    rw [hmar, List.length_append, hbase0, hlen]
    omega
  unfold vspPadCount
  split_ifs with h0 h1 h2
  · have hz : List.replicate 0 (0 : Nat) = [] := rfl
    rw [hz, hbase0]
    exact h0
  · rw [hpad 1 (by omega) (by omega)]
    omega
  · rw [hpad 2 (by omega) (by omega)]
    omega
  · rw [hpad 3 (by omega) (by omega)]
    omega

/-- The padding loop postcondition for generateVSP: the serialized VSP plus
the AEAD tag has length divisible by 3. -/
theorem generateVSP_mod3 (reg : ConjureRegGo) (gen : Nat) :
    ((generateVSP reg gen).length + AES_GCM_TAG_SIZE) % 3 = 0 :=
  mk_padded_mod3 _ _ _ _

/-- The serialized message is at least as long as a present covert address. -/
theorem c2sMarshal_covert_le (cov : List Nat) (g : Nat) (v6 : Bool)
    (sni : Option (List Nat)) (p : List Nat) :
    cov.length ≤ (c2sMarshal ⟨some cov, g, v6, sni, p⟩).length := by
  simp [c2sMarshal, optBytesField, lenDelimField, varintField]
  omega

/-- The VSP is at least as long as a non-empty covert address. -/
theorem generateVSP_covert_le (reg : ConjureRegGo) (gen : Nat)
    (h : 0 < (strBytes reg.covertAddress).length) :
    (strBytes reg.covertAddress).length ≤ (generateVSP reg gen).length := by
  unfold generateVSP
  dsimp only
  rw [if_pos h]
  exact c2sMarshal_covert_le _ _ _ _ _

/-- Claim C7: whenever the VSP fits in 0xFFFF bytes, createRequest assembles
the tag enc_VSP plus Representative plus enc_FSP after exactly the two AEAD
seals, with enc_FSP of 22 bytes and, given the 32-byte Representative, a
total tag length divisible by 3. -/
theorem c7_tag_layout (reg : ConjureRegGo) (hostname : String) (gen : Nat)
    (ks : Nat → List Nat)
    (hrep : reg.keys.Representative.length = 32)
    (hv : (generateVSP reg gen).length ≤ 65535) :
    (createRequestGo reg hostname gen ks).1 = [SendEvent.sealAead, SendEvent.sealAead] ∧
    ((createRequestGo reg hostname gen ks).2.map Prod.fst =
      Except.ok (aesGcmEncrypt (generateVSP reg gen) reg.keys.VspKey reg.keys.VspIv
        ++ reg.keys.Representative
        ++ aesGcmEncrypt (generateFSP reg.useProxyHeader
            ((aesGcmEncrypt (generateVSP reg gen) reg.keys.VspKey reg.keys.VspIv).length % 65536))
          reg.keys.FspKey reg.keys.FspIv)) ∧
    (aesGcmEncrypt (generateFSP reg.useProxyHeader
        ((aesGcmEncrypt (generateVSP reg gen) reg.keys.VspKey reg.keys.VspIv).length % 65536))
      reg.keys.FspKey reg.keys.FspIv).length = 22 ∧
    (aesGcmEncrypt (generateVSP reg gen) reg.keys.VspKey reg.keys.VspIv
      ++ reg.keys.Representative
      ++ aesGcmEncrypt (generateFSP reg.useProxyHeader
          ((aesGcmEncrypt (generateVSP reg gen) reg.keys.VspKey reg.keys.VspIv).length % 65536))
        reg.keys.FspKey reg.keys.FspIv).length % 3 = 0 := by
  have hnot : ¬ 65535 < (generateVSP reg gen).length := by omega
  refine ⟨?_, ?_, ?_, ?_⟩
  · unfold createRequestGo
    rw [if_neg hnot]
  · unfold createRequestGo
    rw [if_neg hnot]
    rfl
  · rw [aesGcmEncrypt_length, generateFSP_length]
  · have hm := generateVSP_mod3 reg gen
    simp only [AES_GCM_TAG_SIZE] at hm
    simp only [List.length_append, aesGcmEncrypt_length, generateFSP_length, hrep]
    omega

/-- Witness for C7 at the sample Min-transport registration. -/
theorem c7_tag_layout_witness :
    sampleRegMin.keys.Representative.length = 32 ∧
    (generateVSP sampleRegMin 7).length ≤ 65535 ∧
    ((createRequestGo sampleRegMin sampleDecoy.hostname 7 (fun n => List.replicate n 0)).1 =
        [SendEvent.sealAead, SendEvent.sealAead] ∧
      ((createRequestGo sampleRegMin sampleDecoy.hostname 7
            (fun n => List.replicate n 0)).2.map Prod.fst =
        Except.ok (aesGcmEncrypt (generateVSP sampleRegMin 7) sampleRegMin.keys.VspKey
            sampleRegMin.keys.VspIv
          ++ sampleRegMin.keys.Representative
          ++ aesGcmEncrypt (generateFSP sampleRegMin.useProxyHeader
              ((aesGcmEncrypt (generateVSP sampleRegMin 7) sampleRegMin.keys.VspKey
                  sampleRegMin.keys.VspIv).length % 65536))
            sampleRegMin.keys.FspKey sampleRegMin.keys.FspIv)) ∧
      (aesGcmEncrypt (generateFSP sampleRegMin.useProxyHeader
          ((aesGcmEncrypt (generateVSP sampleRegMin 7) sampleRegMin.keys.VspKey
              sampleRegMin.keys.VspIv).length % 65536))
        sampleRegMin.keys.FspKey sampleRegMin.keys.FspIv).length = 22 ∧
      (aesGcmEncrypt (generateVSP sampleRegMin 7) sampleRegMin.keys.VspKey
          sampleRegMin.keys.VspIv
        ++ sampleRegMin.keys.Representative
        ++ aesGcmEncrypt (generateFSP sampleRegMin.useProxyHeader
            ((aesGcmEncrypt (generateVSP sampleRegMin 7) sampleRegMin.keys.VspKey
                sampleRegMin.keys.VspIv).length % 65536))
          sampleRegMin.keys.FspKey sampleRegMin.keys.FspIv).length % 3 = 0) :=
  ⟨by decide, by decide,
    c7_tag_layout sampleRegMin sampleDecoy.hostname 7 (fun n => List.replicate n 0)
      (by decide) (by decide)⟩

/-- Claim C8: when the serialized VSP exceeds 0xFFFF bytes, createRequest
fails with PayloadTooLarge, no AEAD seal happens, and the send path posts the
error without any network write. -/
theorem c8_payload_too_large (reg : ConjureRegGo) (hostname : String) (gen : Nat)
    (ks : Nat → List Nat) (writeOk : Bool)
    (h : 65535 < (generateVSP reg gen).length) :
    createRequestGo reg hostname gen ks = ([], Except.error CreateReqErr.payloadTooLarge) ∧
    sendAfterTLSGo reg hostname gen ks writeOk = ([], PostedResult.payloadTooLarge) := by
  have h1 : createRequestGo reg hostname gen ks =
      ([], Except.error CreateReqErr.payloadTooLarge) := by
    unfold createRequestGo
    rw [if_pos h]
  refine ⟨h1, ?_⟩
  unfold sendAfterTLSGo
  rw [h1]

/-- Witness for C8 at the 70000-byte covert address. -/
theorem c8_payload_too_large_witness :
    65535 < (generateVSP oversizedReg 7).length ∧
    sendAfterTLSGo oversizedReg sampleDecoy.hostname 7 (fun n => List.replicate n 0) true =
      ([], PostedResult.payloadTooLarge) := by
  have hlen : (strBytes oversizedReg.covertAddress).length = 70000 := by
    have h1 : strBytes oversizedReg.covertAddress =
        (List.replicate 70000 'a').map Char.toNat := rfl
    rw [h1, List.length_map, List.length_replicate]
  have hpos : 0 < (strBytes oversizedReg.covertAddress).length := by omega
  have h : 65535 < (generateVSP oversizedReg 7).length := by
    have hle := generateVSP_covert_le oversizedReg 7 hpos
    omega
  exact ⟨h, (c8_payload_too_large oversizedReg sampleDecoy.hostname 7
    (fun n => List.replicate n 0) true h).2⟩

end Conjure

